import Mathlib

/-!
Verification development for the Kids Task Tracker application (src/app.py).

The domain logic of the program is shallowly embedded below:
* the per-task completion ledger (`completed_on`, a JSON object mapping
  "YYYY-MM-DD" date strings to booleans) is an association list;
* tasks, children and users mirror the persisted JSON records;
* the task status engine of `DashboardPage.update_tasks_loop` /
  `DashboardPage.populate_tasks_for_child` is the pure function `classify`,
  with time-of-day measured in minutes since midnight (Python compares
  `datetime.time` values, which is the same ordering);
* credential handling (`LoginPage.login`, `RegistrationPage.register`,
  `hash_pin`) is parameterised by the digest function `digest`, since the
  SHA-256 digest itself is opaque to the logic;
* `KidsTaskTracker.load_data` is modelled over an abstract file state:
  the file may be missing, fail JSON decoding, or decode to a JSON value.
-/

namespace KidsTasks

/-! ### Completion ledger (`task["completed_on"]`) -/

/-- A JSON-object ledger from date strings "YYYY-MM-DD" to booleans. -/
abbrev Ledger := List (String × Bool)

/-- `task.get("completed_on", {}).get(date, False)`: absent entries read as
`false`. -/
def ledgerGet (l : Ledger) (date : String) : Bool :=
  match l.lookup date with
  | some b => b
  | none => false

/-- `task["completed_on"][date] = b`: Python dict key assignment (keys are
unique; an existing binding is overwritten, otherwise the pair is appended). -/
def ledgerSet (l : Ledger) (date : String) (b : Bool) : Ledger :=
  match l with
  | [] => [(date, b)]
  | (k, v) :: rest =>
    if k = date then (date, b) :: rest else (k, v) :: ledgerSet rest date b

/-! ### Tasks (the JSON task records built by `AddTaskPopup.save`) -/

/-- A task record: `{"id": ..., "text": ..., "start_time": "HH:MM",
"end_time": "HH:MM", "days": [...], "completed_on": {...}}`. -/
structure Task where
  id : String
  text : String
  start_time : String
  end_time : String
  days : List String
  completed_on : Ledger
deriving DecidableEq

/-- `DashboardPage.toggle_task_completion` (src/app.py:437-449): reads the
current flag for today (absent = false) and stores its negation. -/
def toggle_task_completion (t : Task) (today : String) : Task :=
  { t with completed_on :=
      ledgerSet t.completed_on today (!(ledgerGet t.completed_on today)) }

/-! ### Recurrence -/

/-- The recurrence check of `DashboardPage.populate_tasks_for_child`
(src/app.py:401): a task is kept unless
`"all" not in task["days"] and today_weekday not in task["days"]`. -/
def appliesOn (days : List String) (weekday : String) : Bool :=
  days.contains "all" || days.contains weekday

/-- The canonical weekday list of `AddTaskPopup` (src/app.py:561). -/
def weekdayNames : List String :=
  ["Monday", "Tuesday", "Wednesday", "Thursday", "Friday", "Saturday", "Sunday"]

/-! ### The To-Do / Completed views of `populate_tasks_for_child` -/

/-- Tasks placed in the To-Do frame for a given date: the recurrence applies
and the ledger entry for today is false. -/
def pendingTasksFor (tasks : List Task) (today weekday : String) : List Task :=
  tasks.filter (fun t => appliesOn t.days weekday && !(ledgerGet t.completed_on today))

/-- Tasks placed in the Completed frame for a given date: the recurrence
applies and the ledger entry for today is true. -/
def completedTasksFor (tasks : List Task) (today weekday : String) : List Task :=
  tasks.filter (fun t => appliesOn t.days weekday && ledgerGet t.completed_on today)

/-! ### Task status engine -/

/-- The derived lifecycle states.  `done` is the Completed frame of
`populate_tasks_for_child`; the other three are the colors assigned in
`update_tasks_loop` (task_todo / task_active / task_overdue). -/
inductive TaskState where
  | todo
  | active
  | overdue
  | done
deriving DecidableEq

/-- The status computation, times in minutes since midnight.  A completed
task sits in the Completed frame (`done`).  Otherwise
`update_tasks_loop` (src/app.py:498-505) starts from the todo color, sets
active when `start_time <= now < end_time`, and overdue when `now >= end_time`
(an `elif`, so the active branch wins when both tests hold). -/
def classify (completed : Bool) (startT endT now : Nat) : TaskState :=
  if completed then .done
  else if startT ≤ now ∧ now < endT then .active
  else if endT ≤ now then .overdue
  else .todo

/-- Digit-string evaluation used to model `datetime.strptime(s, "%H:%M")`
field parsing. -/
def digitsToNat? (cs : List Char) : Option Nat :=
  if cs ≠ [] ∧ cs.all Char.isDigit then
    some (cs.foldl (fun a c => a * 10 + (c.toNat - 48)) 0)
  else none

/-- Splits a character list at its unique colon; fails when there is no
colon or more than one. -/
def breakColon : List Char → Option (List Char × List Char)
  | [] => none
  | c :: cs =>
    if c = ':' then
      if cs.contains ':' then none else some ([], cs)
    else
      match breakColon cs with
      | some (a, b) => some (c :: a, b)
      | none => none

/-- `datetime.strptime(s, "%H:%M").time()` as minutes since midnight:
one or two digits for the hour (0-23), one or two for the minute (0-59),
separated by a colon; anything else raises, modelled as `none`. -/
def parseHM (s : String) : Option Nat :=
  match breakColon s.toList with
  | some (h, m) =>
    match digitsToNat? h, digitsToNat? m with
    | some hv, some mv =>
      if h.length ≤ 2 ∧ m.length ≤ 2 ∧ hv < 24 ∧ mv < 60 then
        some (hv * 60 + mv)
      else none
    | _, _ => none
  | none => none

/-- The state the dashboard derives for a task on a date at clock time `now`
(minutes since midnight): `populate_tasks_for_child` decides done vs pending
from the ledger, and `update_tasks_loop` classifies pending tasks from the
parsed time window.  `none` when a stored time string does not parse
(`strptime` would raise). -/
def taskStateOn (t : Task) (today : String) (now : Nat) : Option TaskState :=
  match parseHM t.start_time, parseHM t.end_time with
  | some s, some e => some (classify (ledgerGet t.completed_on today) s e now)
  | _, _ => none

/-! ### Children and users -/

/-- A child record: `{"name": ..., "gender": ..., "tasks": [...]}`
(src/app.py:708). -/
structure Child where
  name : String
  gender : String
  tasks : List Task
deriving DecidableEq

/-- A user record: `{"pin": <hex digest>, "children": [...]}`
(src/app.py:279-282). -/
structure UserData where
  pin : String
  children : List Child
deriving DecidableEq

/-- The `data["users"]` JSON object, keyed by lower-cased email.  Python
dicts have unique keys and preserve insertion order; a fresh key is
appended. -/
abbrev UserStore := List (String × UserData)

/-! ### Credential handling -/

/-- Python's `str.lower()` over the ASCII range the email entry produces:
lower-cases each character. -/
def pyLower (s : String) : String :=
  ⟨s.data.map Char.toLower⟩

/-- Inclusive code-point ranges on which Python's one-character
`str.isdigit` is true: the characters with Unicode Numeric_Type Digit or
Decimal (Unicode 14.0, the table shipped with the CPython 3.11 runtime the
program runs on).  This is a strict superset of the ASCII digits: it also
contains, e.g., superscripts (U+00B2) and fullwidth digits
(U+FF10-U+FF19). -/
def pyDigitRanges : List (Nat × Nat) :=
  [(48, 57), (178, 179), (185, 185), (1632, 1641), (1776, 1785),
   (1984, 1993), (2406, 2415), (2534, 2543), (2662, 2671), (2790, 2799),
   (2918, 2927), (3046, 3055), (3174, 3183), (3302, 3311), (3430, 3439),
   (3558, 3567), (3664, 3673), (3792, 3801), (3872, 3881), (4160, 4169),
   (4240, 4249), (4969, 4977), (6112, 6121), (6160, 6169), (6470, 6479),
   (6608, 6618), (6784, 6793), (6800, 6809), (6992, 7001), (7088, 7097),
   (7232, 7241), (7248, 7257), (8304, 8304), (8308, 8313), (8320, 8329),
   (9312, 9320), (9332, 9340), (9352, 9360), (9450, 9450), (9461, 9469),
   (9471, 9471), (10102, 10110), (10112, 10120), (10122, 10130),
   (42528, 42537), (43216, 43225), (43264, 43273), (43472, 43481),
   (43504, 43513), (43600, 43609), (44016, 44025), (65296, 65305),
   (66720, 66729), (68160, 68163), (68912, 68921), (69216, 69224),
   (69714, 69722), (69734, 69743), (69872, 69881), (69942, 69951),
   (70096, 70105), (70384, 70393), (70736, 70745), (70864, 70873),
   (71248, 71257), (71360, 71369), (71472, 71481), (71904, 71913),
   (72016, 72025), (72784, 72793), (73040, 73049), (73120, 73129),
   (92768, 92777), (92864, 92873), (93008, 93017), (120782, 120831),
   (123200, 123209), (123632, 123641), (125264, 125273), (127232, 127242),
   (130032, 130041)]

/-- Python's one-character `str.isdigit` test. -/
def pyIsDigitChar (c : Char) : Bool :=
  pyDigitRanges.any fun r => r.1 ≤ c.toNat && c.toNat ≤ r.2

/-- The PIN shape test of `RegistrationPage.register` (src/app.py:272):
`len(pin) == 6 and pin.isdigit()`.  Python's `len` counts code points and
`str.isdigit` requires every character to be a Unicode digit — not only an
ASCII one. -/
def pinIsValid (pin : String) : Bool :=
  pin.length = 6 && pin.toList.all pyIsDigitChar

/-- The failure modes of `RegistrationPage.register`, one per messagebox. -/
inductive RegError where
  | emptyFields
  | badPin
  | duplicateEmail
deriving DecidableEq

/-- `RegistrationPage.register` (src/app.py:265-285), parameterised by the
digest function (`hash_pin`, src/app.py:58-60).  The email is lower-cased on
entry; an empty email or pin, a non-6-digit pin, and an already registered
email are rejected in that order; on success the store gains
`{"pin": digest pin, "children": []}` under the lower-cased email. -/
def register (digest : String → String) (users : UserStore)
    (email pin : String) : Except RegError UserStore :=
  let e := pyLower email
  if e = "" ∨ pin = "" then .error .emptyFields
  else if ¬ pinIsValid pin then .error .badPin
  else if (users.lookup e).isSome then .error .duplicateEmail
  else .ok (users ++ [(e, ⟨digest pin, []⟩)])

/-- The outcomes of `LoginPage.login`: success, the empty-field error, or
the single generic "Invalid email or PIN." error. -/
inductive LoginResult where
  | success
  | emptyFields
  | invalid
deriving DecidableEq

/-- `LoginPage.login` (src/app.py:241-256): lower-cases the email, rejects
empty fields, then succeeds iff the store has the email and its stored
digest equals the digest of the supplied pin; an unknown email and a wrong
pin both yield the same generic `invalid` outcome. -/
def login (digest : String → String) (users : UserStore)
    (email pin : String) : LoginResult :=
  let e := pyLower email
  if e = "" ∨ pin = "" then .emptyFields
  else
    match users.lookup e with
    | some u => if u.pin = digest pin then .success else .invalid
    | none => .invalid

/-! ### Task creation (`AddTaskPopup.save`) -/

/-- `f"task_{int(datetime.now().timestamp())}"` (src/app.py:594), with the
timestamp as a natural number (seconds since the epoch). -/
def makeTaskId (ts : Nat) : String :=
  "task_" ++ Nat.repr ts

/-- The failure modes of `AddTaskPopup.save`, one per messagebox. -/
inductive AddTaskError where
  | missingFields
  | noDays
deriving DecidableEq

/-- `AddTaskPopup.save` (src/app.py:579-600) up to the append into the
child: `sel` is the day-checkbox state, `ts` the creation timestamp, the
five text inputs are the description and the hour/minute spinbox strings.
Rejects any empty input field, then an empty day selection; otherwise builds
the task record, normalising a full 7-day selection to `["all"]`. -/
def buildTask (ts : Nat) (text sh sm eh em : String)
    (sel : String → Bool) : Except AddTaskError Task :=
  if text = "" ∨ sh = "" ∨ sm = "" ∨ eh = "" ∨ em = "" then
    .error .missingFields
  else
    let selectedDays := weekdayNames.filter sel
    if selectedDays = [] then .error .noDays
    else .ok
      { id := makeTaskId ts
        text := text
        start_time := sh ++ ":" ++ sm
        end_time := eh ++ ":" ++ em
        days := if selectedDays.length = 7 then ["all"] else selectedDays
        completed_on := [] }

/-- `next((c for c in user_data["children"] if c["name"] == child_name), None)`
followed by `child_data["tasks"].append(new_task)` (src/app.py:602-605): the
task is appended to the FIRST child whose name matches; when no child
matches, nothing changes. -/
def addTaskFirst (children : List Child) (childName : String) (t : Task) :
    List Child :=
  match children with
  | [] => []
  | c :: cs =>
    if c.name = childName then { c with tasks := c.tasks ++ [t] } :: cs
    else c :: addTaskFirst cs childName t

/-- `SettingsPage.remove_task` (src/app.py:762-770): resolves the first
child whose name matches, and if the task is in that child's list removes
its first occurrence (`list.remove`); otherwise nothing changes. -/
def removeTaskFirst (children : List Child) (childName : String) (t : Task) :
    List Child :=
  match children with
  | [] => []
  | c :: cs =>
    if c.name = childName then
      (if t ∈ c.tasks then { c with tasks := c.tasks.erase t } else c) :: cs
    else c :: removeTaskFirst cs childName t

/-- One add-task interaction: the creation timestamp and the popup inputs. -/
structure AddCmd where
  ts : Nat
  text : String
  sh : String
  sm : String
  eh : String
  em : String
  sel : String → Bool

/-- Runs a sequence of add-task commands against a task list: each command
that passes validation appends its task (src/app.py:605), a rejected one
changes nothing. -/
def runAddCmds (tasks : List Task) (cmds : List AddCmd) : List Task :=
  cmds.foldl
    (fun acc c =>
      match buildTask c.ts c.text c.sh c.sm c.eh c.em c.sel with
      | .ok t => acc ++ [t]
      | .error _ => acc)
    tasks

/-! ### Persistence (`KidsTaskTracker.load_data`) -/

/-- JSON values, as `json.load` can return them. -/
inductive JVal where
  | jnull
  | jbool (b : Bool)
  | jnum (n : Int)
  | jstr (s : String)
  | jarr (elems : List JVal)
  | jobj (fields : List (String × JVal))

/-- The state of the data file at load time: missing, present but failing
JSON decoding, or decoding to some JSON value. -/
inductive FileState where
  | missing
  | undecodable
  | decoded (v : JVal)

/-- The fresh empty document `{"users": {}, "settings": {"theme": "light"}}`
(src/app.py:112). -/
def freshDoc : JVal :=
  .jobj [("users", .jobj []), ("settings", .jobj [("theme", .jstr "light")])]

/-- `KidsTaskTracker.load_data` (src/app.py:109-117): a missing file and a
`json.JSONDecodeError` both yield the fresh document; any value that decodes
as JSON is returned as-is, whatever its shape. -/
def load_data : FileState → JVal
  | .missing => freshDoc
  | .undecodable => freshDoc
  | .decoded v => v

/-- Whether a JSON value has the document shape the rest of the program
expects: a top-level object with `"users"` and `"settings"` sub-objects. -/
def isExpectedShape (v : JVal) : Bool :=
  match v with
  | .jobj fields =>
    (match fields.lookup "users" with
     | some (.jobj _) => true
     | _ => false) &&
    (match fields.lookup "settings" with
     | some (.jobj _) => true
     | _ => false)
  | _ => false

/-- Decimal value of a digit-character list, most significant first; used to
invert `Nat.toDigits` when reasoning about the task-id strings. -/
def decVal : List Char → Nat
  | [] => 0
  | c :: cs => (c.toNat - 48) * 10 ^ cs.length + decVal cs

/-! ## Helper lemmas -/

theorem ledgerGet_ledgerSet_self (l : Ledger) (d : String) (b : Bool) :
    ledgerGet (ledgerSet l d b) d = b := by
  induction l with
  | nil => simp [ledgerSet, ledgerGet, List.lookup]
  | cons kv rest ih =>
    obtain ⟨k, v⟩ := kv
    by_cases h : k = d
    · subst h
      simp [ledgerSet, ledgerGet, List.lookup]
    · have hdk : (d == k) = false := by simp [Ne.symm h]
      have hstep : ledgerSet ((k, v) :: rest) d b = (k, v) :: ledgerSet rest d b := by
        simp [ledgerSet, h]
      rw [hstep]
      simpa [ledgerGet, List.lookup, hdk] using ih

theorem lookup_ledgerSet_ne (l : Ledger) (d k : String) (b : Bool)
    (h : k ≠ d) : (ledgerSet l d b).lookup k = l.lookup k := by
  have hkd : (k == d) = false := by simp [h]
  induction l with
  | nil => simp [ledgerSet, List.lookup, hkd]
  | cons kv rest ih =>
    obtain ⟨k', v⟩ := kv
    by_cases h' : k' = d
    · subst h'
      simp [ledgerSet, List.lookup, hkd]
    · have hstep : ledgerSet ((k', v) :: rest) d b = (k', v) :: ledgerSet rest d b := by
        simp [ledgerSet, h']
      rw [hstep]
      cases hkk : (k == k') <;> simp [List.lookup, hkk, ih]

theorem ledgerGet_ledgerSet_ne (l : Ledger) (d k : String) (b : Bool)
    (h : k ≠ d) : ledgerGet (ledgerSet l d b) k = ledgerGet l k := by
  simp [ledgerGet, lookup_ledgerSet_ne l d k b h]

/-! ## Claims -/

/-- Claim C2 (confirmed): toggling completion flips the boolean at
`ledger[taskId][date]`; an absent entry reads as false, so the first toggle
sets it to true; and toggling twice restores the value the ledger held for
that date. -/
theorem toggle_flips_and_round_trips (t : Task) (date : String) :
    (ledgerGet (toggle_task_completion t date).completed_on date
        = !(ledgerGet t.completed_on date))
    ∧ (t.completed_on.lookup date = none →
        ledgerGet (toggle_task_completion t date).completed_on date = true)
    ∧ (ledgerGet
        (toggle_task_completion (toggle_task_completion t date) date).completed_on
        date = ledgerGet t.completed_on date) := by
  refine ⟨?_, ?_, ?_⟩
  · simp [toggle_task_completion, ledgerGet_ledgerSet_self]
  · intro h
    have h0 : ledgerGet t.completed_on date = false := by simp [ledgerGet, h]
    simp [toggle_task_completion, ledgerGet_ledgerSet_self, h0]
  · simp [toggle_task_completion, ledgerGet_ledgerSet_self]

/-- Witness for C2 at a concrete task and date. -/
theorem toggle_flips_and_round_trips_witness :
    (ledgerGet (toggle_task_completion
        (Task.mk "task_1" "Brush teeth" "09:00" "10:00" ["all"] [])
        "2025-01-06").completed_on "2025-01-06"
      = !(ledgerGet ([] : Ledger) "2025-01-06"))
    ∧ (([] : Ledger).lookup "2025-01-06" = none →
        ledgerGet (toggle_task_completion
          (Task.mk "task_1" "Brush teeth" "09:00" "10:00" ["all"] [])
          "2025-01-06").completed_on "2025-01-06" = true)
    ∧ (ledgerGet (toggle_task_completion (toggle_task_completion
          (Task.mk "task_1" "Brush teeth" "09:00" "10:00" ["all"] [])
          "2025-01-06") "2025-01-06").completed_on "2025-01-06"
        = ledgerGet ([] : Ledger) "2025-01-06") :=
  toggle_flips_and_round_trips
    (Task.mk "task_1" "Brush teeth" "09:00" "10:00" ["all"] []) "2025-01-06"

/-- Claim C9 (confirmed): completion toggling is date-scoped: toggling on
date `d` leaves the ledger entry, and hence the computed state, for any
other date `d'` unchanged, and leaves the task's id, text, times and days
unchanged. -/
theorem toggle_frame (t : Task) (d d' : String) (now : Nat) (h : d' ≠ d) :
    ledgerGet (toggle_task_completion t d).completed_on d'
        = ledgerGet t.completed_on d'
    ∧ taskStateOn (toggle_task_completion t d) d' now = taskStateOn t d' now
    ∧ (toggle_task_completion t d).id = t.id
    ∧ (toggle_task_completion t d).text = t.text
    ∧ (toggle_task_completion t d).start_time = t.start_time
    ∧ (toggle_task_completion t d).end_time = t.end_time
    ∧ (toggle_task_completion t d).days = t.days := by
  refine ⟨ledgerGet_ledgerSet_ne _ _ _ _ h, ?_, rfl, rfl, rfl, rfl, rfl⟩
  simp [taskStateOn, toggle_task_completion, ledgerGet_ledgerSet_ne _ _ _ _ h]

/-- Witness for C9 at a concrete task and distinct dates. -/
theorem toggle_frame_witness :
    ledgerGet (toggle_task_completion
        (Task.mk "task_1" "Brush teeth" "09:00" "10:00" ["all"] [])
        "2025-01-06").completed_on "2025-01-07"
      = ledgerGet ([] : Ledger) "2025-01-07"
    ∧ taskStateOn (toggle_task_completion
        (Task.mk "task_1" "Brush teeth" "09:00" "10:00" ["all"] [])
        "2025-01-06") "2025-01-07" 570
      = taskStateOn (Task.mk "task_1" "Brush teeth" "09:00" "10:00" ["all"] [])
        "2025-01-07" 570
    ∧ (toggle_task_completion
        (Task.mk "task_1" "Brush teeth" "09:00" "10:00" ["all"] [])
        "2025-01-06").id = "task_1"
    ∧ (toggle_task_completion
        (Task.mk "task_1" "Brush teeth" "09:00" "10:00" ["all"] [])
        "2025-01-06").text = "Brush teeth"
    ∧ (toggle_task_completion
        (Task.mk "task_1" "Brush teeth" "09:00" "10:00" ["all"] [])
        "2025-01-06").start_time = "09:00"
    ∧ (toggle_task_completion
        (Task.mk "task_1" "Brush teeth" "09:00" "10:00" ["all"] [])
        "2025-01-06").end_time = "10:00"
    ∧ (toggle_task_completion
        (Task.mk "task_1" "Brush teeth" "09:00" "10:00" ["all"] [])
        "2025-01-06").days = ["all"] :=
  toggle_frame (Task.mk "task_1" "Brush teeth" "09:00" "10:00" ["all"] [])
    "2025-01-06" "2025-01-07" 570 (by decide)

/-- Claim C3 (confirmed): the all-days sentinel applies on every date; a
descriptor without the sentinel applies exactly when the date's weekday name
is one of its members; and a task whose descriptor does not apply today is
excluded from both the pending and completed views. -/
theorem appliesOn_spec (days : List String) (wd today : String)
    (tasks : List Task) (t : Task) :
    appliesOn ["all"] wd = true
    ∧ (days.contains "all" = false → (appliesOn days wd = true ↔ wd ∈ days))
    ∧ (appliesOn t.days wd = false →
        t ∉ pendingTasksFor tasks today wd ∧ t ∉ completedTasksFor tasks today wd) := by
  refine ⟨by simp [appliesOn], ?_, ?_⟩
  · intro h
    have h' : "all" ∉ days := by simpa using h
    simp [appliesOn, h']
  · intro h
    constructor
    · intro hmem
      have := (List.mem_filter.mp hmem).2
      simp [h] at this
    · intro hmem
      have := (List.mem_filter.mp hmem).2
      simp [h] at this

/-- Witness for C3 at a concrete descriptor, weekday and task list. -/
theorem appliesOn_spec_witness :
    appliesOn ["all"] "Monday" = true
    ∧ ((["Tuesday", "Friday"] : List String).contains "all" = false →
        (appliesOn ["Tuesday", "Friday"] "Monday" = true
          ↔ "Monday" ∈ (["Tuesday", "Friday"] : List String)))
    ∧ (appliesOn (Task.mk "task_1" "Brush teeth" "09:00" "10:00"
          ["Tuesday", "Friday"] []).days "Monday" = false →
        (Task.mk "task_1" "Brush teeth" "09:00" "10:00" ["Tuesday", "Friday"] [])
          ∉ pendingTasksFor
            [Task.mk "task_1" "Brush teeth" "09:00" "10:00" ["Tuesday", "Friday"] []]
            "2025-01-06" "Monday"
        ∧ (Task.mk "task_1" "Brush teeth" "09:00" "10:00" ["Tuesday", "Friday"] [])
          ∉ completedTasksFor
            [Task.mk "task_1" "Brush teeth" "09:00" "10:00" ["Tuesday", "Friday"] []]
            "2025-01-06" "Monday") :=
  appliesOn_spec ["Tuesday", "Friday"] "Monday" "2025-01-06"
    [Task.mk "task_1" "Brush teeth" "09:00" "10:00" ["Tuesday", "Friday"] []]
    (Task.mk "task_1" "Brush teeth" "09:00" "10:00" ["Tuesday", "Friday"] [])

/-- Claim C1 counterexample: for a task with an inverted window
(start 10:00, end 09:00 — the source never validates start < end), at 09:30
the task is uncompleted, applies today, and `now < start_time`, yet the
derived state is OVERDUE, not the TODO the claim requires: the `elif` in
`update_tasks_loop` tests `now >= end_time` first. -/
theorem state_claim_fails_on_inverted_window :
    ledgerGet (Task.mk "task_0" "x" "10:00" "09:00" ["all"] []).completed_on
        "2025-01-06" = false
    ∧ parseHM (Task.mk "task_0" "x" "10:00" "09:00" ["all"] []).start_time
        = some 600
    ∧ (570 : Nat) < 600
    ∧ appliesOn (Task.mk "task_0" "x" "10:00" "09:00" ["all"] []).days "Monday"
        = true
    ∧ taskStateOn (Task.mk "task_0" "x" "10:00" "09:00" ["all"] []) "2025-01-06"
        570 = some .overdue
    ∧ taskStateOn (Task.mk "task_0" "x" "10:00" "09:00" ["all"] []) "2025-01-06"
        570 ≠ some .todo := by
  refine ⟨by decide, by decide, by decide, by decide, by decide, by decide⟩

/-- Claim C1 amended (proved): for a task whose window is not inverted
(`start_time ≤ end_time`) and which applies on today's date, the derived
state is DONE whenever the ledger entry for today is true, regardless of the
time; otherwise `now < start_time` gives TODO, `start_time ≤ now < end_time`
gives ACTIVE, and `now ≥ end_time` gives OVERDUE (half-open window: at
exactly `end_time` the state is OVERDUE, at exactly `start_time` ACTIVE). -/
theorem task_state_engine_spec (t : Task) (today wd : String) (now s e : Nat)
    (hs : parseHM t.start_time = some s) (he : parseHM t.end_time = some e)
    (hse : s ≤ e) (happ : appliesOn t.days wd = true) :
    (ledgerGet t.completed_on today = true → taskStateOn t today now = some .done)
    ∧ (ledgerGet t.completed_on today = false →
        (now < s → taskStateOn t today now = some .todo)
        ∧ (s ≤ now → now < e → taskStateOn t today now = some .active)
        ∧ (e ≤ now → taskStateOn t today now = some .overdue)) := by
  constructor
  · intro hdone
    simp [taskStateOn, hs, he, classify, hdone]
  · intro hnot
    refine ⟨?_, ?_, ?_⟩
    · intro hlt
      have h1 : ¬ (s ≤ now ∧ now < e) := by omega
      have h2 : ¬ (e ≤ now) := by omega
      simp [taskStateOn, hs, he, classify, hnot, h1, h2]
    · intro h1 h2
      simp [taskStateOn, hs, he, classify, hnot, h1, h2]
    · intro hge
      have h1 : ¬ (s ≤ now ∧ now < e) := by omega
      simp [taskStateOn, hs, he, classify, hnot, h1, hge]

/-- Witness for the amended C1 at the spec's example window 09:00-10:00,
evaluated at 08:59 (uncompleted). -/
theorem task_state_engine_spec_witness :
    (ledgerGet (Task.mk "task_1" "Brush teeth" "09:00" "10:00" ["all"] []).completed_on
        "2025-01-06" = true →
      taskStateOn (Task.mk "task_1" "Brush teeth" "09:00" "10:00" ["all"] [])
        "2025-01-06" 539 = some .done)
    ∧ (ledgerGet (Task.mk "task_1" "Brush teeth" "09:00" "10:00" ["all"] []).completed_on
        "2025-01-06" = false →
        ((539 : Nat) < 540 →
          taskStateOn (Task.mk "task_1" "Brush teeth" "09:00" "10:00" ["all"] [])
            "2025-01-06" 539 = some .todo)
        ∧ ((540 : Nat) ≤ 539 → (539 : Nat) < 600 →
          taskStateOn (Task.mk "task_1" "Brush teeth" "09:00" "10:00" ["all"] [])
            "2025-01-06" 539 = some .active)
        ∧ ((600 : Nat) ≤ 539 →
          taskStateOn (Task.mk "task_1" "Brush teeth" "09:00" "10:00" ["all"] [])
            "2025-01-06" 539 = some .overdue)) :=
  task_state_engine_spec
    (Task.mk "task_1" "Brush teeth" "09:00" "10:00" ["all"] [])
    "2025-01-06" "Monday" 539 540 600 (by decide) (by decide) (by decide) (by decide)

theorem pyLower_eq_empty_iff (s : String) : pyLower s = "" ↔ s = "" := by
  constructor
  · intro h
    have h2 : s.data.map Char.toLower = ([] : List Char) := congrArg String.data h
    have h3 : s.data = [] := by simpa using h2
    cases s with
    | mk data =>
      simp only at h3
      subst h3
      rfl
  · intro h
    subst h
    rfl

theorem lookup_append_self (users : UserStore) (e : String) (u : UserData)
    (h : users.lookup e = none) : (users ++ [(e, u)]).lookup e = some u := by
  induction users with
  | nil => simp [List.lookup]
  | cons kv rest ih =>
    obtain ⟨k, v⟩ := kv
    cases hek : (e == k) with
    | true => simp [List.lookup, hek] at h
    | false =>
      simp only [List.lookup, hek] at h
      simpa [List.lookup, hek] using ih h

theorem lookup_append_ne (users : UserStore) (e k : String) (u : UserData)
    (h : k ≠ e) : (users ++ [(e, u)]).lookup k = users.lookup k := by
  have hke : (k == e) = false := by simp [h]
  induction users with
  | nil => simp [List.lookup, hke]
  | cons kv rest ih =>
    obtain ⟨k', v⟩ := kv
    cases hkk : (k == k') <;> simp [List.lookup, hkk, ih]

/-- Claim C5 counterexample: the claim demands a ValidationError for every
pin that is not exactly 6 ASCII digits, but Python's `str.isdigit` accepts
non-ASCII Unicode digits, so `register` accepts the six-fullwidth-digit pin
"１２３４５６" (`len == 6`, `isdigit() == True`) and stores a user under
it. -/
theorem register_accepts_non_ascii_digit_pin :
    "１２３４５６".toList.all Char.isDigit = false
    ∧ "１２３４５６".length = 6
    ∧ pinIsValid "１２３４５６" = true
    ∧ register (fun p => p ++ "#") [] "a@b.com" "１２３４５６"
        = .ok [("a@b.com", ⟨"１２３４５６" ++ "#", []⟩)] :=
  ⟨by decide, by decide, by decide, by rfl⟩

/-- Claim C5 amended (proved): `register` fails exactly when the email is
empty, the pin is empty, the pin is not exactly 6 Python-digit characters
(`str.isdigit`, a superset of the ASCII digits), or the (lower-cased) email
is already registered; on success the store maps the lower-cased email to
the digest of the pin together with an empty child list, and every other
key is unchanged. -/
theorem register_spec (digest : String → String) (users : UserStore)
    (email pin : String) :
    ((∃ err, register digest users email pin = .error err) ↔
      (email = "" ∨ pin = "" ∨ pinIsValid pin = false
        ∨ (users.lookup (pyLower email)).isSome = true))
    ∧ (∀ users', register digest users email pin = .ok users' →
        users'.lookup (pyLower email) = some ⟨digest pin, []⟩
        ∧ ∀ k, k ≠ pyLower email → users'.lookup k = users.lookup k) := by
  by_cases h1 : pyLower email = "" ∨ pin = ""
  · have hreg : register digest users email pin = .error .emptyFields := by
      simp [register, h1]
    constructor
    · refine iff_of_true ⟨_, hreg⟩ ?_
      rcases h1 with h | h
      · exact .inl ((pyLower_eq_empty_iff email).mp h)
      · exact .inr (.inl h)
    · intro users' habs
      rw [hreg] at habs
      cases habs
  · by_cases h2 : pinIsValid pin
    · by_cases h3 : (users.lookup (pyLower email)).isSome
      · have hreg : register digest users email pin = .error .duplicateEmail := by
          simp [register, h1, h2, h3]
        constructor
        · exact iff_of_true ⟨_, hreg⟩ (.inr (.inr (.inr h3)))
        · intro users' habs
          rw [hreg] at habs
          cases habs
      · have hnone : users.lookup (pyLower email) = none :=
          Option.not_isSome_iff_eq_none.mp h3
        have hreg : register digest users email pin
            = .ok (users ++ [(pyLower email, ⟨digest pin, []⟩)]) := by
          simp [register, h1, h2, h3]
        push_neg at h1
        have he : email ≠ "" := fun hh =>
          h1.1 ((pyLower_eq_empty_iff email).mpr hh)
        constructor
        · refine iff_of_false ?_ ?_
          · rintro ⟨err, habs⟩
            rw [hreg] at habs
            cases habs
          · rintro (h | h | h | h)
            · exact he h
            · exact h1.2 h
            · exact absurd h2 (by simp [h])
            · rw [hnone] at h
              cases h
        · intro users' hok
          rw [hreg] at hok
          injection hok with hok
          subst hok
          exact ⟨lookup_append_self users _ _ hnone,
            fun k hk => lookup_append_ne users _ k _ hk⟩
    · have h2' : pinIsValid pin = false := by simpa using h2
      have hreg : register digest users email pin = .error .badPin := by
        simp [register, h1, h2']
      constructor
      · exact iff_of_true ⟨_, hreg⟩ (.inr (.inr (.inl h2')))
      · intro users' habs
        rw [hreg] at habs
        cases habs

/-- Witness for C5: registering a fresh email with a valid pin in the empty
store. -/
theorem register_spec_witness :
    ((∃ err, register (fun p => p ++ "#") [] "A@B.com" "123456" = .error err) ↔
      ("A@B.com" = "" ∨ "123456" = "" ∨ pinIsValid "123456" = false
        ∨ (([] : UserStore).lookup (pyLower "A@B.com")).isSome = true))
    ∧ (∀ users', register (fun p => p ++ "#") [] "A@B.com" "123456" = .ok users' →
        users'.lookup (pyLower "A@B.com") = some ⟨"123456" ++ "#", []⟩
        ∧ ∀ k, k ≠ pyLower "A@B.com" →
            users'.lookup k = ([] : UserStore).lookup k) :=
  register_spec (fun p => p ++ "#") [] "A@B.com" "123456"

/-- Claim C6 (confirmed): registering and then authenticating with the same
credentials succeeds; authenticating with any pin whose digest differs from
the stored one fails; authentication succeeds exactly when a user exists for
the lower-cased email whose stored digest equals the digest of the supplied
pin; and an unknown account yields the same generic `invalid` outcome as a
credential mismatch. -/
theorem login_spec (digest : String → String) (users : UserStore)
    (email pin wrongPin : String)
    (he : email ≠ "") (hp : pin ≠ "") (hw : wrongPin ≠ "") :
    (∀ users', register digest users email pin = .ok users' →
        login digest users' email pin = .success)
    ∧ (∀ u, users.lookup (pyLower email) = some u → u.pin ≠ digest wrongPin →
        login digest users email wrongPin = .invalid)
    ∧ (login digest users email pin = .success ↔
        ∃ u, users.lookup (pyLower email) = some u ∧ u.pin = digest pin)
    ∧ (users.lookup (pyLower email) = none →
        login digest users email pin = .invalid) := by
  have hel : pyLower email ≠ "" := fun hh =>
    he ((pyLower_eq_empty_iff email).mp hh)
  refine ⟨?_, ?_, ?_, ?_⟩
  · intro users' hok
    by_cases h1 : pyLower email = "" ∨ pin = ""
    · simp [register, h1] at hok
    · by_cases h2 : pinIsValid pin
      · by_cases h3 : (users.lookup (pyLower email)).isSome
        · simp [register, h1, h2, h3] at hok
        · have hnone : users.lookup (pyLower email) = none :=
            Option.not_isSome_iff_eq_none.mp h3
          have hreg : register digest users email pin
              = .ok (users ++ [(pyLower email, ⟨digest pin, []⟩)]) := by
            simp [register, h1, h2, h3]
          rw [hreg] at hok
          injection hok with hok
          subst hok
          simp [login, hel, hp, lookup_append_self users _ _ hnone]
      · simp [register, h1, h2] at hok
  · intro u hu hne
    simp only [login]
    rw [if_neg (by simp [hel, hw])]
    rw [hu]
    simp [hne]
  · constructor
    · intro hs
      rcases hlook : users.lookup (pyLower email) with _ | u
      · exfalso
        have hinv : login digest users email pin = .invalid := by
          simp [login, hel, hp, hlook]
        rw [hinv] at hs
        cases hs
      · by_cases hd : u.pin = digest pin
        · exact ⟨u, rfl, hd⟩
        · exfalso
          have hinv : login digest users email pin = .invalid := by
            simp only [login]
            rw [if_neg (by simp [hel, hp])]
            rw [hlook]
            simp [hd]
          rw [hinv] at hs
          cases hs
    · rintro ⟨u, hu, hd⟩
      simp only [login]
      rw [if_neg (by simp [hel, hp])]
      rw [hu]
      simp [hd]
  · intro hnone
    simp [login, hel, hp, hnone]

/-- Witness for C6 at concrete credentials and a concrete digest. -/
theorem login_spec_witness :
    (∀ users', register (fun p => p ++ "#") [] "A@B.com" "123456" = .ok users' →
        login (fun p => p ++ "#") users' "A@B.com" "123456" = .success)
    ∧ (∀ u, ([] : UserStore).lookup (pyLower "A@B.com") = some u →
        u.pin ≠ "654321" ++ "#" →
        login (fun p => p ++ "#") [] "A@B.com" "654321" = .invalid)
    ∧ (login (fun p => p ++ "#") [] "A@B.com" "123456" = .success ↔
        ∃ u, ([] : UserStore).lookup (pyLower "A@B.com") = some u
          ∧ u.pin = "123456" ++ "#")
    ∧ (([] : UserStore).lookup (pyLower "A@B.com") = none →
        login (fun p => p ++ "#") [] "A@B.com" "123456" = .invalid) :=
  login_spec (fun p => p ++ "#") [] "A@B.com" "123456" "654321"
    (by decide) (by decide) (by decide)

/-- Claim C4 counterexample: a file whose contents are valid JSON but not
the expected document shape — here the JSON array `[]` — is returned as-is
by `load_data`, not replaced by the fresh empty document: the source only
catches `json.JSONDecodeError` and `FileNotFoundError`. -/
theorem load_returns_non_document_as_is :
    isExpectedShape (JVal.jarr []) = false
    ∧ load_data (.decoded (.jarr [])) = .jarr []
    ∧ load_data (.decoded (.jarr [])) ≠ freshDoc :=
  ⟨rfl, rfl, fun h => JVal.noConfusion h⟩

/-- Claim C4 amended (proved): `load_data` returns the fresh empty document
`{users: {}, settings: {theme: "light"}}` exactly for a missing file or one
whose contents fail JSON decoding; contents that decode as JSON are returned
unchanged, whatever their shape. -/
theorem load_data_spec :
    load_data .missing = freshDoc
    ∧ load_data .undecodable = freshDoc
    ∧ ∀ v : JVal, load_data (.decoded v) = v :=
  ⟨rfl, rfl, fun _ => rfl⟩

/-- Claim C10 (confirmed): add-task and remove-task resolve their child by
name: with duplicate names, the first matching child in the sequence is the
one operated on, and every child after it — same-named ones included — is
left unchanged. -/
theorem child_resolved_by_first_name_match (pre post : List Child) (c : Child)
    (name : String) (t : Task)
    (hpre : ∀ c' ∈ pre, c'.name ≠ name) (hc : c.name = name) :
    addTaskFirst (pre ++ c :: post) name t
      = pre ++ { c with tasks := c.tasks ++ [t] } :: post
    ∧ removeTaskFirst (pre ++ c :: post) name t
      = pre ++ (if t ∈ c.tasks then { c with tasks := c.tasks.erase t } else c)
          :: post := by
  induction pre with
  | nil =>
    constructor
    · simp [addTaskFirst, hc]
    · simp [removeTaskFirst, hc]
  | cons p ps ih =>
    have hp : p.name ≠ name := hpre p (by simp)
    have ih' := ih fun c' hc' => hpre c' (by simp [hc'])
    constructor
    · simpa [addTaskFirst, hp] using ih'.1
    · simpa [removeTaskFirst, hp] using ih'.2

/-- Witness for C10: a user with children Alex, Sam, Sam; the commands hit
the first Sam and the trailing Sam is untouched. -/
theorem child_resolved_by_first_name_match_witness :
    addTaskFirst
        [Child.mk "Alex" "male" [],
         Child.mk "Sam" "male" [],
         Child.mk "Sam" "female" []] "Sam"
        (Task.mk "task_1" "Brush teeth" "09:00" "10:00" ["all"] [])
      = [Child.mk "Alex" "male" [],
         Child.mk "Sam" "male" [Task.mk "task_1" "Brush teeth" "09:00" "10:00" ["all"] []],
         Child.mk "Sam" "female" []]
    ∧ removeTaskFirst
        [Child.mk "Alex" "male" [],
         Child.mk "Sam" "male" [],
         Child.mk "Sam" "female" []] "Sam"
        (Task.mk "task_1" "Brush teeth" "09:00" "10:00" ["all"] [])
      = [Child.mk "Alex" "male" [],
         (if (Task.mk "task_1" "Brush teeth" "09:00" "10:00" ["all"] [])
              ∈ (Child.mk "Sam" "male" []).tasks
          then { Child.mk "Sam" "male" [] with
                  tasks := (Child.mk "Sam" "male" []).tasks.erase
                    (Task.mk "task_1" "Brush teeth" "09:00" "10:00" ["all"] []) }
          else Child.mk "Sam" "male" []),
         Child.mk "Sam" "female" []] :=
  child_resolved_by_first_name_match
    [Child.mk "Alex" "male" []] [Child.mk "Sam" "female" []]
    (Child.mk "Sam" "male" []) "Sam"
    (Task.mk "task_1" "Brush teeth" "09:00" "10:00" ["all"] [])
    (by intro c' hc'; simp at hc'; subst hc'; decide) rfl

/-- Claim C8 (confirmed): the add-task save rejects an empty description,
any empty time field and an empty day selection, and otherwise stores the
task with its days normalised to the all-days sentinel `["all"]` exactly
when all seven weekdays are selected, and to the selected weekday subset
otherwise. -/
theorem addTask_validation (ts : Nat) (text sh sm eh em : String)
    (sel : String → Bool) :
    ((∃ err, buildTask ts text sh sm eh em sel = .error err) ↔
      (text = "" ∨ sh = "" ∨ sm = "" ∨ eh = "" ∨ em = ""
        ∨ weekdayNames.filter sel = []))
    ∧ (∀ t, buildTask ts text sh sm eh em sel = .ok t →
        (t.days = ["all"] ↔ ∀ d ∈ weekdayNames, sel d = true)
        ∧ (¬ (∀ d ∈ weekdayNames, sel d = true) →
            t.days = weekdayNames.filter sel)) := by
  have hlen7 : weekdayNames.length = 7 := rfl
  have hlen : (weekdayNames.filter sel).length = 7
      ↔ ∀ d ∈ weekdayNames, sel d = true := by
    constructor
    · intro h
      have heq := (List.filter_sublist weekdayNames (p := sel)).eq_of_length
        (by rw [h, hlen7])
      exact fun d hd => List.filter_eq_self.mp heq d hd
    · intro h
      rw [List.filter_eq_self.mpr h]
      exact hlen7
  by_cases h1 : text = "" ∨ sh = "" ∨ sm = "" ∨ eh = "" ∨ em = ""
  · have hb : buildTask ts text sh sm eh em sel = .error .missingFields := by
      simp [buildTask, h1]
    constructor
    · exact iff_of_true ⟨_, hb⟩ (by tauto)
    · intro t habs
      rw [hb] at habs
      cases habs
  · by_cases h2 : weekdayNames.filter sel = []
    · have hb : buildTask ts text sh sm eh em sel = .error .noDays := by
        simp [buildTask, h1, h2]
      constructor
      · exact iff_of_true ⟨_, hb⟩ (by tauto)
      · intro t habs
        rw [hb] at habs
        cases habs
    · have hb : buildTask ts text sh sm eh em sel = .ok
          { id := makeTaskId ts
            text := text
            start_time := sh ++ ":" ++ sm
            end_time := eh ++ ":" ++ em
            days := if (weekdayNames.filter sel).length = 7 then ["all"]
                    else weekdayNames.filter sel
            completed_on := [] } := by
        simp [buildTask, h1, h2]
      constructor
      · refine iff_of_false ?_ (by tauto)
        rintro ⟨err, habs⟩
        rw [hb] at habs
        cases habs
      · intro t hok
        rw [hb] at hok
        injection hok with hok
        subst hok
        dsimp only
        constructor
        · by_cases h7 : (weekdayNames.filter sel).length = 7
          · rw [if_pos h7]
            exact iff_of_true rfl (hlen.mp h7)
          · rw [if_neg h7]
            refine iff_of_false ?_ fun hall => h7 (hlen.mpr hall)
            intro heq
            have hmem : "all" ∈ weekdayNames.filter sel := by
              rw [heq]
              simp
            have := List.mem_of_mem_filter hmem
            simp [weekdayNames] at this
        · intro hnall
          have h7 : ¬ (weekdayNames.filter sel).length = 7 := fun hh =>
            hnall (hlen.mp hh)
          rw [if_neg h7]

/-- Witness for C8: a valid save with only Monday selected. -/
theorem addTask_validation_witness :
    ((∃ err, buildTask 100 "Brush teeth" "09" "00" "10" "00"
          (fun d => d == "Monday") = .error err) ↔
      ("Brush teeth" = "" ∨ "09" = "" ∨ "00" = "" ∨ "10" = "" ∨ "00" = ""
        ∨ weekdayNames.filter (fun d => d == "Monday") = []))
    ∧ (∀ t, buildTask 100 "Brush teeth" "09" "00" "10" "00"
          (fun d => d == "Monday") = .ok t →
        (t.days = ["all"] ↔ ∀ d ∈ weekdayNames, (fun d => d == "Monday") d = true)
        ∧ (¬ (∀ d ∈ weekdayNames, (fun d => d == "Monday") d = true) →
            t.days = weekdayNames.filter (fun d => d == "Monday"))) :=
  addTask_validation 100 "Brush teeth" "09" "00" "10" "00" (fun d => d == "Monday")


theorem decVal_digitChar (m : Nat) (h : m < 10) :
    ((Nat.digitChar m).toNat - 48) = m := by
  interval_cases m <;> rfl

theorem decVal_toDigitsCore (fuel : Nat) :
    ∀ (n : Nat) (ds : List Char), n < 10 ^ fuel →
      decVal (Nat.toDigitsCore 10 fuel n ds) = n * 10 ^ ds.length + decVal ds := by
  induction fuel with
  | zero =>
    intro n ds h
    have hn : n = 0 := by omega
    subst hn
    simp [Nat.toDigitsCore]
  | succ f ih =>
    intro n ds h
    simp only [Nat.toDigitsCore]
    by_cases h0 : n / 10 = 0
    · have hlt : n < 10 := by omega
      rw [if_pos h0]
      simp only [decVal, decVal_digitChar (n % 10) (Nat.mod_lt n (by norm_num))]
      have : n % 10 = n := Nat.mod_eq_of_lt hlt
      rw [this]
    · rw [if_neg h0]
      have hb : n / 10 < 10 ^ f := by
        rw [Nat.div_lt_iff_lt_mul (by norm_num : (0:Nat) < 10)]
        calc n < 10 ^ (f + 1) := h
        _ = 10 ^ f * 10 := by rw [pow_succ]
      rw [ih (n / 10) (Nat.digitChar (n % 10) :: ds) hb]
      simp only [decVal, List.length_cons,
        decVal_digitChar (n % 10) (Nat.mod_lt n (by norm_num))]
      have hdm := Nat.div_add_mod n 10
      conv_rhs => rw [← hdm]
      ring

theorem decVal_toDigits (n : Nat) : decVal (Nat.toDigits 10 n) = n := by
  have h : n < 10 ^ (n + 1) :=
    lt_of_lt_of_le (Nat.lt_pow_self (by norm_num) n)
      (Nat.pow_le_pow_right (by norm_num) (Nat.le_succ n))
  have := decVal_toDigitsCore (n + 1) n [] h
  simpa [Nat.toDigits, decVal] using this

theorem nat_repr_inj (m n : Nat) (h : (Nat.repr m).data = (Nat.repr n).data) :
    m = n := by
  have hm : (Nat.repr m).data = Nat.toDigits 10 m := rfl
  have hn : (Nat.repr n).data = Nat.toDigits 10 n := rfl
  rw [hm, hn] at h
  calc m = decVal (Nat.toDigits 10 m) := (decVal_toDigits m).symm
  _ = decVal (Nat.toDigits 10 n) := by rw [h]
  _ = n := decVal_toDigits n

theorem makeTaskId_inj (m n : Nat) (h : makeTaskId m = makeTaskId n) : m = n := by
  have hd := congrArg String.data h
  simp only [makeTaskId] at hd
  rw [String.data_append, String.data_append] at hd
  exact nat_repr_inj m n (List.append_cancel_left hd)

theorem runAddCmds_cons (tasks : List Task) (c : AddCmd) (cs : List AddCmd) :
    runAddCmds tasks (c :: cs) =
      runAddCmds (match buildTask c.ts c.text c.sh c.sm c.eh c.em c.sel with
                  | .ok t => tasks ++ [t]
                  | .error _ => tasks) cs := rfl

theorem runAddCmds_acc (cmds : List AddCmd) :
    ∀ tasks : List Task, runAddCmds tasks cmds = tasks ++ runAddCmds [] cmds := by
  induction cmds with
  | nil => intro tasks; simp [runAddCmds]
  | cons c cs ih =>
    intro tasks
    rw [runAddCmds_cons, runAddCmds_cons]
    cases hb : buildTask c.ts c.text c.sh c.sm c.eh c.em c.sel with
    | ok t =>
      rw [ih (tasks ++ [t]), ih ([] ++ [t])]
      simp
    | error e =>
      rw [ih tasks, ih []]

theorem buildTask_id (ts : Nat) (text sh sm eh em : String) (sel : String → Bool)
    (t : Task) (h : buildTask ts text sh sm eh em sel = .ok t) :
    t.id = makeTaskId ts := by
  by_cases h1 : text = "" ∨ sh = "" ∨ sm = "" ∨ eh = "" ∨ em = ""
  · simp [buildTask, h1] at h
  · by_cases h2 : weekdayNames.filter sel = []
    · simp [buildTask, h1, h2] at h
    · simp only [buildTask, h1, h2, if_false, ite_false] at h
      injection h with h
      subst h
      rfl

theorem ids_runAddCmds (cmds : List AddCmd) :
    (runAddCmds [] cmds).map Task.id =
      (cmds.filter fun c =>
        (buildTask c.ts c.text c.sh c.sm c.eh c.em c.sel).isOk).map
        (fun c => makeTaskId c.ts) := by
  induction cmds with
  | nil => rfl
  | cons c cs ih =>
    rw [runAddCmds_cons]
    cases hb : buildTask c.ts c.text c.sh c.sm c.eh c.em c.sel with
    | ok t =>
      rw [runAddCmds_acc cs ([] ++ [t])]
      have hid := buildTask_id c.ts c.text c.sh c.sm c.eh c.em c.sel t hb
      simp [List.filter_cons, hb, Except.isOk, Except.toBool, ih, hid]
    | error e =>
      rw [runAddCmds_acc cs []]
      simp [List.filter_cons, hb, Except.isOk, Except.toBool, ih]

/-- Claim C7 counterexample: task ids come from
`f"task_{int(datetime.now().timestamp())}"`, so two add-task commands issued
within the same clock second produce the same id within one child's task
sequence — id uniqueness does not hold for every command sequence. -/
theorem task_ids_collide_at_equal_timestamps :
    ¬ ((runAddCmds []
        [⟨100, "a", "08", "00", "09", "00", fun d => d == "Monday"⟩,
         ⟨100, "b", "08", "00", "09", "00", fun d => d == "Monday"⟩]).map
          Task.id).Nodup := by
  decide

/-- Claim C7 amended (proved): after any sequence of add-task commands whose
creation timestamps are pairwise distinct, every task id in the resulting
task sequence is distinct. -/
theorem task_ids_unique_of_distinct_timestamps (cmds : List AddCmd)
    (h : (cmds.map AddCmd.ts).Nodup) :
    ((runAddCmds [] cmds).map Task.id).Nodup := by
  rw [ids_runAddCmds]
  have hsub : List.Sublist
      (cmds.filter fun c =>
        (buildTask c.ts c.text c.sh c.sm c.eh c.em c.sel).isOk) cmds :=
    List.filter_sublist cmds
  have h2 : ((cmds.filter fun c =>
      (buildTask c.ts c.text c.sh c.sm c.eh c.em c.sel).isOk).map
        AddCmd.ts).Nodup :=
    h.sublist (hsub.map AddCmd.ts)
  have h3 : (fun c : AddCmd => makeTaskId c.ts) = makeTaskId ∘ AddCmd.ts := rfl
  rw [h3, ← List.map_map]
  exact h2.map fun a b hab => makeTaskId_inj a b hab

/-- Witness for the amended C7: two adds one second apart give distinct ids. -/
theorem task_ids_unique_of_distinct_timestamps_witness :
    ((([⟨100, "a", "08", "00", "09", "00", fun d => d == "Monday"⟩,
        ⟨101, "b", "08", "00", "09", "00", fun d => d == "Monday"⟩] :
          List AddCmd).map AddCmd.ts).Nodup)
    ∧ ((runAddCmds []
        [⟨100, "a", "08", "00", "09", "00", fun d => d == "Monday"⟩,
         ⟨101, "b", "08", "00", "09", "00", fun d => d == "Monday"⟩]).map
          Task.id).Nodup :=
  ⟨by decide,
    task_ids_unique_of_distinct_timestamps
      [⟨100, "a", "08", "00", "09", "00", fun d => d == "Monday"⟩,
       ⟨101, "b", "08", "00", "09", "00", fun d => d == "Monday"⟩] (by decide)⟩

end KidsTasks
